import Mathlib

/-!
Verification of the semantic search engine of the cmbm-bartender-gateway
repository (src/src/server.ts, `SemanticSearchService`, and the search router
in the unnamed source file).

The shallow embedding below models JavaScript numbers as exact real numbers
extended with a NaN element (`JSNum`): the only operation in this code that can
produce NaN from finite inputs is the division in `cosineSimilarity` when a
norm is zero, and `JSNum` captures exactly that.  Stateful code (the two result
caches with their 5-minute `setTimeout` expiry) is modelled by explicit state
passing with a timestamp per entry: an entry stored at time `t` is visible to a
read at time `now` exactly when `now < t + cacheTimeout`, which is the
externally observable behaviour of a timer that deletes the entry
`cacheTimeout` milliseconds after it was stored.  External dependencies are
parameters: the Ollama embedding call is a function `embed : String → List ℝ`
(a fixed query-embedding snapshot), the catalog load is a `List CatalogEntry`
(a fixed catalog snapshot), and health-check dependencies are `Except` values.
-/

namespace Gateway

noncomputable section

/-- A JavaScript number that is either an actual (exact) real number or NaN.
Overflow and rounding of IEEE doubles are outside the model; NaN is kept
because `cosineSimilarity` can produce it and the spec discusses it. -/
inductive JSNum where
  | num : ℝ → JSNum
  | nan : JSNum

/-- Whether a `JSNum` is an actual number. -/
def JSNum.isNum : JSNum → Bool
  | .num _ => true
  | .nan => false

/-- JavaScript subtraction on `JSNum`: NaN propagates. -/
def jsSub : JSNum → JSNum → JSNum
  | .num a, .num b => .num (a - b)
  | _, _ => .nan

/-- JavaScript `>=` on numbers: any comparison involving NaN is false. -/
def jsNumGe : JSNum → JSNum → Prop
  | .num x, .num y => y ≤ x
  | _, _ => False

/-- JavaScript division `a / b` restricted to the shapes reachable in
`cosineSimilarity`: for `b = 0` IEEE division gives NaN when `a = 0` and an
infinity otherwise; in `cosineSimilarity` a zero denominator forces a zero
numerator (lemma `dot_eq_zero_of_normB_eq_zero` below), so the NaN case is the
only one that can occur and we model a zero denominator as NaN directly. -/
def jsDiv (a b : ℝ) : JSNum :=
  if b = 0 then .nan else .num (a / b)

/-- JavaScript `Math.round` on an actual number: halves round toward +infinity. -/
def jsRound (x : ℝ) : ℤ := ⌊x + 1 / 2⌋

/-- The single `for` loop of `SemanticSearchService.cosineSimilarity`, which
accumulates `(dotProduct, normA, normB)`.  The source iterates `i` up to
`vecA.length` and reads `vecB[i]`; embeddings of one collection share a fixed
dimensionality (spec section 3), and for equal-length vectors this structural
recursion computes exactly the same three sums. -/
def dotNormLoop : List ℝ → List ℝ → ℝ × ℝ × ℝ
  | a :: as, b :: bs =>
    let r := dotNormLoop as bs
    (a * b + r.1, a * a + r.2.1, b * b + r.2.2)
  | _, _ => (0, 0, 0)

/-- `SemanticSearchService.cosineSimilarity`:
`dotProduct / (Math.sqrt(normA) * Math.sqrt(normB))`, with no guard against a
zero norm. -/
def cosineSimilarity (vecA vecB : List ℝ) : JSNum :=
  let s := dotNormLoop vecA vecB
  jsDiv s.1 (Real.sqrt s.2.1 * Real.sqrt s.2.2)

/-- Raw catalog metadata as read from the vector-db JSON: a `name` plus the
collection-specific optional attributes this service ever reads. -/
structure EntryMetadata where
  name : String
  category : Option String := none
  glass : Option String := none
  alcoholic : Option String := none
  ingredientCount : Option ℤ := none
  family : Option String := none
  usageCount : Option ℤ := none

/-- One entry of a vector-db collection (recipes or ingredients). -/
structure CatalogEntry where
  id : String
  metadata : EntryMetadata
  embedding : List ℝ

/-- A catalog entry paired with its computed similarity, the
`{...recipe, similarity}` spread object of the source. -/
structure ScoredEntry where
  entry : CatalogEntry
  similarity : JSNum

/-- The `metadata` object of a formatted `SearchResult` (interface
`SearchResult` in the source; recipe results fill the first four fields,
ingredient results fill `category`, `family`, `usageCount`). -/
structure ResultMetadata where
  category : Option String := none
  glass : Option String := none
  alcoholic : Option String := none
  ingredientCount : Option ℤ := none
  family : Option String := none
  usageCount : Option ℤ := none

/-- A formatted search result (interface `SearchResult` in the source). -/
structure SearchResult where
  id : String
  name : String
  similarity : JSNum
  metadata : ResultMetadata

/-- JavaScript truthiness of an optional string: absent and the empty string
are falsy. -/
def truthyStr : Option String → Bool
  | some s => decide (s ≠ "")
  | none => false

/-- A runtime filter object as delivered by the JSON body: keys in the order
the client wrote them (JavaScript objects preserve insertion order, which is
what `JSON.stringify` serializes). -/
abbrev FilterObj := List (String × String)

/-- Property access `filter.k` on a runtime filter object. -/
def fGet (f : FilterObj) (k : String) : Option String :=
  (f.find? (fun p => p.1 == k)).map (fun p => p.2)

/-- The recipe filter predicate of `searchRecipes`:
`if (filter.category && r.metadata.category !== filter.category) return false;`
(the category check is skipped for a falsy, i.e. empty, category) and
`if (filter.alcoholic !== undefined && r.metadata.alcoholic !== filter.alcoholic) return false;`. -/
def recipeFilterPred (f : FilterObj) (r : ScoredEntry) : Bool :=
  if truthyStr (fGet f "category") = true ∧ r.entry.metadata.category ≠ fGet f "category" then
    false
  else if (fGet f "alcoholic").isSome = true ∧ r.entry.metadata.alcoholic ≠ fGet f "alcoholic" then
    false
  else true

/-- The ingredient filter predicate of `searchIngredients`: both the category
and the family check are guarded by truthiness of the filter value. -/
def ingredientFilterPred (f : FilterObj) (i : ScoredEntry) : Bool :=
  if truthyStr (fGet f "category") = true ∧ i.entry.metadata.category ≠ fGet f "category" then
    false
  else if truthyStr (fGet f "family") = true ∧ i.entry.metadata.family ≠ fGet f "family" then
    false
  else true

/-- Stable insertion of `x` into `l`, keeping `x` in front of the first element
`y` with `le x y`. -/
def insertSorted (le : α → α → Bool) (x : α) : List α → List α
  | [] => [x]
  | y :: ys => if le x y then x :: y :: ys else y :: insertSorted le x ys

/-- A stable comparison sort (insertion sort). -/
def sortByLe (le : α → α → Bool) (l : List α) : List α :=
  l.foldr (insertSorted le) []

/-- ECMAScript `SortCompare` applied to a comparator result: the element stays
in front when the comparator value is not positive, and a NaN comparator value
is coerced to `+0` (treated as a tie). -/
def jsCmpLe (c : JSNum) : Bool :=
  match c with
  | .num x => decide (x ≤ 0)
  | .nan => true

/-- `Array.prototype.sort(cmp)`: a stable sort whose result is ordered by the
comparator (for a consistent comparator; for an inconsistent one — which here
requires NaN similarities — ECMAScript leaves the order implementation-defined
and this model fixes the insertion-sort order). -/
def jsSortBy (cmp : α → α → JSNum) (l : List α) : List α :=
  sortByLe (fun a b => jsCmpLe (cmp a b)) l

/-- Escape of one character inside a JSON string literal (quote and backslash;
control characters never occur in the inputs considered here). -/
def jsonEscapeChar (c : Char) : String :=
  if c = Char.ofNat 34 then String.mk [Char.ofNat 92, Char.ofNat 34]
  else if c = Char.ofNat 92 then String.mk [Char.ofNat 92, Char.ofNat 92]
  else String.mk [c]

/-- Body of a JSON string literal. -/
def jsonEscape (s : String) : String :=
  String.join (s.toList.map jsonEscapeChar)

/-- `JSON.stringify` of a flat string-valued object: keys are serialized in
insertion order. -/
def jsonStringifyObj (l : FilterObj) : String :=
  "\x7b" ++ String.intercalate ","
      (l.map (fun p => "\"" ++ jsonEscape p.1 ++ "\":\"" ++ jsonEscape p.2 ++ "\"")) ++ "\x7d"

/-- The cache key of both search operations:
`` `${query}-${limit}-${JSON.stringify(filter || {})}` ``.
Note that the collection name is not part of the key. -/
def cacheKeyStr (query : String) (limit : ℕ) (filter : Option FilterObj) : String :=
  query ++ "-" ++ toString limit ++ "-" ++ jsonStringifyObj (filter.getD [])

/-- `Math.round(r.similarity * 1000) / 10` (percentage with one decimal);
`Math.round` and division propagate NaN. -/
def formatSimilarity : JSNum → JSNum
  | .num x => .num ((jsRound (x * 1000) : ℝ) / 10)
  | .nan => .nan

/-- The recipe result formatting of `searchRecipes`. -/
def formatRecipeResult (r : ScoredEntry) : SearchResult :=
  { id := r.entry.id
    name := r.entry.metadata.name
    similarity := formatSimilarity r.similarity
    metadata :=
      { category := r.entry.metadata.category
        glass := r.entry.metadata.glass
        alcoholic := r.entry.metadata.alcoholic
        ingredientCount := r.entry.metadata.ingredientCount } }

/-- The ingredient result formatting of `searchIngredients`. -/
def formatIngredientResult (i : ScoredEntry) : SearchResult :=
  { id := i.entry.id
    name := i.entry.metadata.name
    similarity := formatSimilarity i.similarity
    metadata :=
      { category := i.entry.metadata.category
        family := i.entry.metadata.family
        usageCount := i.entry.metadata.usageCount } }

/-- The cache-miss computation of `searchRecipes` after the query embedding is
available: score every entry, apply the filter when one was supplied, sort by
descending similarity, truncate to `limit`, format. -/
def rankRecipes (queryEmbedding : List ℝ) (recipes : List CatalogEntry)
    (limit : ℕ) (filter : Option FilterObj) : List SearchResult :=
  let results := recipes.map
    (fun recipe => ScoredEntry.mk recipe (cosineSimilarity queryEmbedding recipe.embedding))
  let results := match filter with
    | some f => results.filter (recipeFilterPred f)
    | none => results
  let sorted := jsSortBy (fun a b => jsSub b.similarity a.similarity) results
  let topResults := sorted.take limit
  topResults.map formatRecipeResult

/-- The cache-miss computation of `searchIngredients`. -/
def rankIngredients (queryEmbedding : List ℝ) (ingredients : List CatalogEntry)
    (limit : ℕ) (filter : Option FilterObj) : List SearchResult :=
  let results := ingredients.map
    (fun ingredient => ScoredEntry.mk ingredient
      (cosineSimilarity queryEmbedding ingredient.embedding))
  let results := match filter with
    | some f => results.filter (ingredientFilterPred f)
    | none => results
  let sorted := jsSortBy (fun a b => jsSub b.similarity a.similarity) results
  let topResults := sorted.take limit
  topResults.map formatIngredientResult

/-- One stored cache line: key, cached formatted results, store time (ms). -/
abbrev CacheLine := String × List SearchResult × ℕ

/-- `cacheTimeout`: 5 minutes in milliseconds. -/
def cacheTimeout : ℕ := 5 * 60 * 1000

/-- The two private `Map`s of `SemanticSearchService`. -/
structure SearchState where
  recipeCache : List CacheLine
  ingredientCache : List CacheLine

/-- Cache read at time `now`.  The source deletes an entry by a
`setTimeout(..., cacheTimeout)` scheduled when the entry is stored; a read
therefore sees the entry exactly while `now < storeTime + cacheTimeout`. -/
def cacheGet (c : List CacheLine) (k : String) (now : ℕ) : Option (List SearchResult) :=
  match c.find? (fun line => line.1 == k) with
  | some line => if now < line.2.2 + cacheTimeout then some line.2.1 else none
  | none => none

/-- `Map.set` plus the deletion timer: stores `(k, v)` at time `now`,
replacing any previous entry for `k`. -/
def cachePut (c : List CacheLine) (k : String) (v : List SearchResult) (now : ℕ) :
    List CacheLine :=
  (k, v, now) :: c.filter (fun line => !(line.1 == k))

/-- Keys of a cache map are unique (a JavaScript `Map` invariant). -/
def cacheWF (c : List CacheLine) : Prop :=
  (c.map (fun line => line.1)).Nodup

/-- `SemanticSearchService.searchRecipes` for a fixed embedding snapshot
`embed` and catalog snapshot `recipes`, called at time `now`.  Returns the
results, the updated state, and whether the embedding provider was invoked
(false exactly on a cache hit). -/
def searchRecipes (embed : String → List ℝ) (recipes : List CatalogEntry)
    (st : SearchState) (now : ℕ) (query : String) (limit : ℕ)
    (filter : Option FilterObj) : List SearchResult × SearchState × Bool :=
  match cacheGet st.recipeCache (cacheKeyStr query limit filter) now with
  | some cached => (cached, st, false)
  | none =>
    let formattedResults := rankRecipes (embed query) recipes limit filter
    (formattedResults,
      { st with
          recipeCache :=
            cachePut st.recipeCache (cacheKeyStr query limit filter) formattedResults now },
      true)

/-- `SemanticSearchService.searchIngredients`, analogous to `searchRecipes`
but using the ingredient cache and the ingredient filter/formatting. -/
def searchIngredients (embed : String → List ℝ) (ingredients : List CatalogEntry)
    (st : SearchState) (now : ℕ) (query : String) (limit : ℕ)
    (filter : Option FilterObj) : List SearchResult × SearchState × Bool :=
  match cacheGet st.ingredientCache (cacheKeyStr query limit filter) now with
  | some cached => (cached, st, false)
  | none =>
    let formattedResults := rankIngredients (embed query) ingredients limit filter
    (formattedResults,
      { st with
          ingredientCache :=
            cachePut st.ingredientCache (cacheKeyStr query limit filter) formattedResults now },
      true)

/-- `SemanticSearchService.clearCache`: clears both maps. -/
def clearCache (_ : SearchState) : SearchState :=
  { recipeCache := [], ingredientCache := [] }

/-- Leading-match test on character lists (helper for `includes`). -/
def charsLeadMatch : List Char → List Char → Bool
  | [], _ => true
  | _ :: _, [] => false
  | p :: ps, c :: cs => p == c && charsLeadMatch ps cs

/-- Containment of `needle` in a character list. -/
def charsContain (needle : List Char) : List Char → Bool
  | [] => charsLeadMatch needle []
  | c :: cs => charsLeadMatch needle (c :: cs) || charsContain needle cs

/-- JavaScript `s.includes(pattern)`. -/
def strIncludes (s pattern : String) : Bool :=
  charsContain pattern.toList s.toList

/-- Outcomes of the external calls made by `getHealth`: the Ollama model list
and the two vector-db loads; `Except.error` models a thrown error. -/
structure HealthDeps where
  listModels : Except String (List String)
  recipesDb : Except String (List CatalogEntry)
  ingredientsDb : Except String (List CatalogEntry)

/-- Whether an `Except` succeeded. -/
def exceptOk : Except ε α → Bool
  | .ok _ => true
  | .error _ => false

/-- The `details` payload of `getHealth`. -/
structure HealthDetails where
  connected : Bool := false
  model : String := ""
  available : Bool := false
  recipes : ℕ := 0
  ingredients : ℕ := 0
  recipeQueries : ℕ := 0
  ingredientQueries : ℕ := 0
  error : Option String := none

/-- The return value of `getHealth`. -/
structure Health where
  status : String
  details : HealthDetails

/-- `SemanticSearchService.getHealth`: lists the Ollama models, checks whether
one of them contains the embedding-model name, loads both vector dbs, and
reports `healthy` with informational counts; any thrown error yields
`unhealthy` with the error message. -/
def getHealth (embeddingModel : String) (st : SearchState) (deps : HealthDeps) : Health :=
  match deps.listModels with
  | .error e => { status := "unhealthy", details := { error := some e } }
  | .ok models =>
    match deps.recipesDb with
    | .error e => { status := "unhealthy", details := { error := some e } }
    | .ok recipes =>
      match deps.ingredientsDb with
      | .error e => { status := "unhealthy", details := { error := some e } }
      | .ok ingredients =>
        { status := "healthy"
          details :=
            { connected := true
              model := embeddingModel
              available := models.any (fun m => strIncludes m embeddingModel)
              recipes := recipes.length
              ingredients := ingredients.length
              recipeQueries := st.recipeCache.length
              ingredientQueries := st.ingredientCache.length
              error := none } }

/-- A parsed request body of the two search endpoints.  `query = none` models
an absent or non-string `query` (both rejected by the same check); `limit` is
any JSON number (not necessarily an integer), absent meaning the destructuring
default `10`. -/
structure RequestBody where
  query : Option String := none
  limit : Option ℚ := none
  filter : Option FilterObj := none

/-- The validation prefix shared by `router.post("/recipes")` and
`router.post("/ingredients")`: returns the 400 error message, or `none` when
the request passes.  Mirrors, in order: the falsy/type check on `query`, the
`query.length < 3` check, and `limit < 1 || limit > 50` (no integrality
check). -/
def validateSearchRequest (b : RequestBody) : Option String :=
  match b.query with
  | none => some "Query parameter is required and must be a string"
  | some q =>
    if q = "" then some "Query parameter is required and must be a string"
    else if q.length < 3 then some "Query must be at least 3 characters long"
    else
      let limit := b.limit.getD 10
      if limit < 1 ∨ 50 < limit then some "Limit must be between 1 and 50"
      else none

/-- The `/recipes` route handler: validates, then calls the service.  The
Boolean records whether the embedding provider was invoked; on a validation
failure the state is returned untouched and no embedding or catalog access
happens.  `slice`-style truncation makes a fractional `limit` act as its
floor. -/
def handleRecipes (embed : String → List ℝ) (recipes : List CatalogEntry)
    (st : SearchState) (now : ℕ) (b : RequestBody) :
    Except String (List SearchResult) × SearchState × Bool :=
  match validateSearchRequest b with
  | some err => (.error err, st, false)
  | none =>
    let q := b.query.getD ""
    let lim := Int.toNat ⌊b.limit.getD 10⌋
    let r := searchRecipes embed recipes st now q lim b.filter
    (.ok r.1, r.2.1, r.2.2)

/-- The `/ingredients` route handler, analogous to `handleRecipes`. -/
def handleIngredients (embed : String → List ℝ) (ingredients : List CatalogEntry)
    (st : SearchState) (now : ℕ) (b : RequestBody) :
    Except String (List SearchResult) × SearchState × Bool :=
  match validateSearchRequest b with
  | some err => (.error err, st, false)
  | none =>
    let q := b.query.getD ""
    let lim := Int.toNat ⌊b.limit.getD 10⌋
    let r := searchIngredients embed ingredients st now q lim b.filter
    (.ok r.1, r.2.1, r.2.2)

/-! ### Cache lemmas -/

theorem cacheGet_nil (k : String) (now : ℕ) : cacheGet [] k now = none := rfl

theorem searchRecipes_miss (embed : String → List ℝ) (recipes : List CatalogEntry)
    (st : SearchState) (now : ℕ) (query : String) (limit : ℕ) (filter : Option FilterObj)
    (h : cacheGet st.recipeCache (cacheKeyStr query limit filter) now = none) :
    searchRecipes embed recipes st now query limit filter =
      (rankRecipes (embed query) recipes limit filter,
        { st with recipeCache := (cachePut st.recipeCache (cacheKeyStr query limit filter)
            (rankRecipes (embed query) recipes limit filter) now) },
        true) := by
  unfold searchRecipes
  rw [h]

theorem searchIngredients_miss (embed : String → List ℝ) (ingredients : List CatalogEntry)
    (st : SearchState) (now : ℕ) (query : String) (limit : ℕ) (filter : Option FilterObj)
    (h : cacheGet st.ingredientCache (cacheKeyStr query limit filter) now = none) :
    searchIngredients embed ingredients st now query limit filter =
      (rankIngredients (embed query) ingredients limit filter,
        { st with ingredientCache := (cachePut st.ingredientCache (cacheKeyStr query limit filter)
            (rankIngredients (embed query) ingredients limit filter) now) },
        true) := by
  unfold searchIngredients
  rw [h]

theorem searchRecipes_hit (embed : String → List ℝ) (recipes : List CatalogEntry)
    (st : SearchState) (now : ℕ) (query : String) (limit : ℕ) (filter : Option FilterObj)
    (v : List SearchResult)
    (h : cacheGet st.recipeCache (cacheKeyStr query limit filter) now = some v) :
    searchRecipes embed recipes st now query limit filter = (v, st, false) := by
  unfold searchRecipes
  rw [h]

theorem searchIngredients_hit (embed : String → List ℝ) (ingredients : List CatalogEntry)
    (st : SearchState) (now : ℕ) (query : String) (limit : ℕ) (filter : Option FilterObj)
    (v : List SearchResult)
    (h : cacheGet st.ingredientCache (cacheKeyStr query limit filter) now = some v) :
    searchIngredients embed ingredients st now query limit filter = (v, st, false) := by
  unfold searchIngredients
  rw [h]

theorem cacheGet_cachePut_self (c : List CacheLine) (k : String) (v : List SearchResult)
    (t now : ℕ) :
    cacheGet (cachePut c k v t) k now =
      if now < t + cacheTimeout then some v else none := by
  unfold cacheGet cachePut
  simp [List.find?_cons]

/-- In a well-formed cache, a lookup of a key whose unique entry is stale
misses. -/
theorem cacheGet_none_of_stale (c : List CacheLine) (k : String) (v : List SearchResult)
    (t now : ℕ) (hwf : cacheWF c) (hmem : (k, v, t) ∈ c) (hstale : t + cacheTimeout ≤ now) :
    cacheGet c k now = none := by
  induction c with
  | nil => cases hmem
  | cons line rest ih =>
    unfold cacheWF at hwf
    simp only [List.map_cons, List.nodup_cons] at hwf
    rcases List.mem_cons.mp hmem with hhead | htail
    · subst hhead
      unfold cacheGet
      simp only [List.find?_cons, beq_self_eq_true]
      simp [Nat.not_lt.mpr hstale]
    · have hne : line.1 ≠ k := by
        intro hk
        exact hwf.1 (hk ▸ (List.mem_map.mpr ⟨(k, v, t), htail, rfl⟩))
      unfold cacheGet
      simp only [List.find?_cons]
      have : (line.1 == k) = false := beq_eq_false_iff_ne.mpr hne
      rw [this]
      exact ih hwf.2 htail

/-! ### Insertion sort lemmas -/

theorem insertSorted_perm (le : α → α → Bool) (x : α) (l : List α) :
    List.Perm (insertSorted le x l) (x :: l) := by
  induction l with
  | nil => exact List.Perm.refl _
  | cons y ys ih =>
    unfold insertSorted
    by_cases h : le x y = true
    · rw [if_pos h]
    · rw [if_neg h]
      exact (List.Perm.cons y ih).trans (List.Perm.swap x y ys)

theorem sortByLe_perm (le : α → α → Bool) (l : List α) :
    List.Perm (sortByLe le l) l := by
  induction l with
  | nil => exact List.Perm.refl _
  | cons a as ih =>
    have : sortByLe le (a :: as) = insertSorted le a (sortByLe le as) := rfl
    rw [this]
    exact (insertSorted_perm le a (sortByLe le as)).trans (List.Perm.cons a ih)

theorem mem_sortByLe (le : α → α → Bool) (l : List α) (a : α) :
    a ∈ sortByLe le l ↔ a ∈ l :=
  (sortByLe_perm le l).mem_iff

theorem mem_insertSorted (le : α → α → Bool) (x : α) (l : List α) (a : α) :
    a ∈ insertSorted le x l ↔ a = x ∨ a ∈ l := by
  rw [(insertSorted_perm le x l).mem_iff, List.mem_cons]

theorem pairwise_insertSorted (le : α → α → Bool) (L : List α)
    (htot : ∀ a ∈ L, ∀ b ∈ L, le a b = true ∨ le b a = true)
    (htrans : ∀ a ∈ L, ∀ b ∈ L, ∀ c ∈ L, le a b = true → le b c = true → le a c = true)
    (x : α) (hx : x ∈ L) :
    ∀ ys : List α, (∀ z ∈ ys, z ∈ L) →
      ys.Pairwise (fun a b => le a b = true) →
      (insertSorted le x ys).Pairwise (fun a b => le a b = true) := by
  intro ys
  induction ys with
  | nil => intro _ _; simp [insertSorted]
  | cons y ys ih =>
    intro hsub hpw
    have hy : y ∈ L := hsub y (List.mem_cons_self y ys)
    have hsub' : ∀ z ∈ ys, z ∈ L := fun z hz => hsub z (List.mem_cons_of_mem y hz)
    rcases List.pairwise_cons.mp hpw with ⟨hyall, hpw'⟩
    unfold insertSorted
    by_cases hxy : le x y = true
    · rw [if_pos hxy]
      refine List.pairwise_cons.mpr ⟨?_, hpw⟩
      intro z hz
      rcases List.mem_cons.mp hz with hzy | hzys
      · exact hzy ▸ hxy
      · exact htrans x hx y hy z (hsub' z hzys) hxy (hyall z hzys)
    · rw [if_neg hxy]
      refine List.pairwise_cons.mpr ⟨?_, ih hsub' hpw'⟩
      intro z hz
      rcases (mem_insertSorted le x ys z).mp hz with hzx | hzys
      · subst hzx
        rcases htot z hx y hy with h | h
        · exact absurd h hxy
        · exact h
      · exact hyall z hzys

theorem pairwise_sortByLe (le : α → α → Bool) (L : List α)
    (htot : ∀ a ∈ L, ∀ b ∈ L, le a b = true ∨ le b a = true)
    (htrans : ∀ a ∈ L, ∀ b ∈ L, ∀ c ∈ L, le a b = true → le b c = true → le a c = true) :
    ∀ m : List α, (∀ z ∈ m, z ∈ L) →
      (sortByLe le m).Pairwise (fun a b => le a b = true) := by
  intro m
  induction m with
  | nil => intro _; exact List.Pairwise.nil
  | cons a as ih =>
    intro hsub
    have ha : a ∈ L := hsub a (List.mem_cons_self a as)
    have hsub' : ∀ z ∈ as, z ∈ L := fun z hz => hsub z (List.mem_cons_of_mem a hz)
    have hstep : sortByLe le (a :: as) = insertSorted le a (sortByLe le as) := rfl
    rw [hstep]
    refine pairwise_insertSorted le L htot htrans a ha (sortByLe le as) ?_ (ih hsub')
    intro z hz
    exact hsub' z ((mem_sortByLe le as z).mp hz)

/-! ### Cosine similarity bounds -/

theorem dotNormLoop_normA_nonneg (A B : List ℝ) : 0 ≤ (dotNormLoop A B).2.1 := by
  induction A generalizing B with
  | nil => simp [dotNormLoop]
  | cons a as ih =>
    cases B with
    | nil => simp [dotNormLoop]
    | cons b bs =>
      have := ih bs
      unfold dotNormLoop
      dsimp only
      nlinarith [sq_nonneg a]

theorem dotNormLoop_normB_nonneg (A B : List ℝ) : 0 ≤ (dotNormLoop A B).2.2 := by
  induction A generalizing B with
  | nil => simp [dotNormLoop]
  | cons a as ih =>
    cases B with
    | nil => simp [dotNormLoop]
    | cons b bs =>
      have := ih bs
      unfold dotNormLoop
      dsimp only
      nlinarith [sq_nonneg b]

/-- The Cauchy–Schwarz inequality for the three sums of the similarity loop. -/
theorem dotNormLoop_sq_le (A B : List ℝ) :
    (dotNormLoop A B).1 ^ 2 ≤ (dotNormLoop A B).2.1 * (dotNormLoop A B).2.2 := by
  induction A generalizing B with
  | nil => simp [dotNormLoop]
  | cons a as ih =>
    cases B with
    | nil => simp [dotNormLoop]
    | cons b bs =>
      have hd := ih bs
      have hna := dotNormLoop_normA_nonneg as bs
      have hnb := dotNormLoop_normB_nonneg as bs
      unfold dotNormLoop
      dsimp only
      set d := (dotNormLoop as bs).1 with hdd
      set na := (dotNormLoop as bs).2.1 with hnaa
      set nb := (dotNormLoop as bs).2.2 with hnbb
      rcases eq_or_lt_of_le hnb with hnb0 | hnbpos
      · have hd0 : d = 0 := by
          have : d ^ 2 ≤ 0 := by nlinarith
          nlinarith [sq_nonneg d]
        rw [hd0, ← hnb0]
        nlinarith [mul_nonneg hna (sq_nonneg b), sq_nonneg (a * b)]
      · nlinarith [sq_nonneg (a * nb - b * d), mul_nonneg (sq_nonneg b) (sub_nonneg.mpr hd),
          mul_nonneg hna hnb, sq_nonneg (a * b)]

/-- A zero second norm forces a zero dot product (every summand of the dot
product has a zero factor), so the division `0/0` in the source is IEEE NaN —
the justification for modelling a zero denominator in `jsDiv` as NaN. -/
theorem dot_eq_zero_of_normB_eq_zero (A B : List ℝ) (h : (dotNormLoop A B).2.2 = 0) :
    (dotNormLoop A B).1 = 0 := by
  induction A generalizing B with
  | nil => simp [dotNormLoop]
  | cons a as ih =>
    cases B with
    | nil => simp [dotNormLoop]
    | cons b bs =>
      unfold dotNormLoop at h ⊢
      dsimp only at h ⊢
      have hnb := dotNormLoop_normB_nonneg as bs
      have hb : b = 0 := by nlinarith [sq_nonneg b]
      have hrest : (dotNormLoop as bs).2.2 = 0 := by nlinarith [sq_nonneg b]
      rw [hb, ih bs hrest]
      ring

/-- `cosineSimilarity` yields NaN whenever either argument has a zero norm. -/
theorem cosineSimilarity_nan_of_norm_eq_zero (A B : List ℝ)
    (h : (dotNormLoop A B).2.1 = 0 ∨ (dotNormLoop A B).2.2 = 0) :
    cosineSimilarity A B = JSNum.nan := by
  unfold cosineSimilarity jsDiv
  dsimp only
  rcases h with h | h
  · rw [h, Real.sqrt_zero, zero_mul, if_pos rfl]
  · rw [h, Real.sqrt_zero, mul_zero, if_pos rfl]

/-- When `cosineSimilarity` yields an actual number, that number lies in
`[-1, 1]`. -/
theorem cosineSimilarity_num_bounds (A B : List ℝ) (x : ℝ)
    (h : cosineSimilarity A B = JSNum.num x) : -1 ≤ x ∧ x ≤ 1 := by
  unfold cosineSimilarity jsDiv at h
  dsimp only at h
  set d := (dotNormLoop A B).1 with hdd
  set na := (dotNormLoop A B).2.1 with hnaa
  set nb := (dotNormLoop A B).2.2 with hnbb
  by_cases hz : Real.sqrt na * Real.sqrt nb = 0
  · rw [if_pos hz] at h
    cases h
  · rw [if_neg hz] at h
    have hx : x = d / (Real.sqrt na * Real.sqrt nb) := by
      cases h
      rfl
    have hnn : 0 ≤ Real.sqrt na * Real.sqrt nb :=
      mul_nonneg (Real.sqrt_nonneg na) (Real.sqrt_nonneg nb)
    have hpos : 0 < Real.sqrt na * Real.sqrt nb := lt_of_le_of_ne hnn (Ne.symm hz)
    have hsq : (Real.sqrt na * Real.sqrt nb) * (Real.sqrt na * Real.sqrt nb) = na * nb := by
      have h1 := Real.mul_self_sqrt (dotNormLoop_normA_nonneg A B)
      have h2 := Real.mul_self_sqrt (dotNormLoop_normB_nonneg A B)
      calc (Real.sqrt na * Real.sqrt nb) * (Real.sqrt na * Real.sqrt nb)
          = (Real.sqrt na * Real.sqrt na) * (Real.sqrt nb * Real.sqrt nb) := by ring
        _ = na * nb := by rw [h1, h2]
    have hcs := dotNormLoop_sq_le A B
    rw [← hdd, ← hnaa, ← hnbb] at hcs
    have hdle : d ≤ Real.sqrt na * Real.sqrt nb := by nlinarith
    have hdge : -(Real.sqrt na * Real.sqrt nb) ≤ d := by nlinarith
    constructor
    · rw [hx]
      rw [le_div_iff₀ hpos]
      linarith
    · rw [hx]
      rw [div_le_one hpos]
      exact hdle

/-- Concrete floor values used for the rounding bounds. -/
theorem floor_thousand_half : ⌊(1000 : ℝ) * 1 + 1 / 2⌋ = (1000 : ℤ) := by
  rw [Int.floor_eq_iff]
  push_cast
  constructor
  · norm_num
  · norm_num

theorem floor_neg_thousand_half : ⌊(1000 : ℝ) * (-1) + 1 / 2⌋ = (-1000 : ℤ) := by
  rw [Int.floor_eq_iff]
  push_cast
  constructor
  · norm_num
  · norm_num

/-- The one-decimal percentage of a cosine value in `[-1, 1]` lies in
`[-100, 100]`. -/
theorem formatSimilarity_bounds (x y : ℝ) (h1 : -1 ≤ x) (h2 : x ≤ 1)
    (h : formatSimilarity (JSNum.num x) = JSNum.num y) : -100 ≤ y ∧ y ≤ 100 := by
  unfold formatSimilarity at h
  have hy : y = (jsRound (x * 1000) : ℝ) / 10 := by
    cases h
    rfl
  unfold jsRound at hy
  have hle : ⌊x * 1000 + 1 / 2⌋ ≤ (1000 : ℤ) := by
    rw [← floor_thousand_half]
    apply Int.floor_le_floor
    nlinarith
  have hge : (-1000 : ℤ) ≤ ⌊x * 1000 + 1 / 2⌋ := by
    rw [← floor_neg_thousand_half]
    apply Int.floor_le_floor
    nlinarith
  have hcle : ((⌊x * 1000 + 1 / 2⌋ : ℤ) : ℝ) ≤ ((1000 : ℤ) : ℝ) := Int.cast_le.mpr hle
  have hcge : ((-1000 : ℤ) : ℝ) ≤ ((⌊x * 1000 + 1 / 2⌋ : ℤ) : ℝ) := Int.cast_le.mpr hge
  rw [hy]
  constructor
  · rw [le_div_iff₀ (by norm_num : (0 : ℝ) < 10)]
    push_cast at hcge ⊢
    nlinarith
  · rw [div_le_iff₀ (by norm_num : (0 : ℝ) < 10)]
    push_cast at hcle ⊢
    nlinarith

/-- Rounding to one decimal preserves the descending order of similarities. -/
theorem formatSimilarity_mono (x y : ℝ) (h : y ≤ x) :
    jsNumGe (formatSimilarity (JSNum.num x)) (formatSimilarity (JSNum.num y)) := by
  unfold formatSimilarity jsNumGe jsRound
  have hfl : ⌊y * 1000 + 1 / 2⌋ ≤ ⌊x * 1000 + 1 / 2⌋ := by
    apply Int.floor_le_floor
    nlinarith
  have : ((⌊y * 1000 + 1 / 2⌋ : ℤ) : ℝ) ≤ ((⌊x * 1000 + 1 / 2⌋ : ℤ) : ℝ) := Int.cast_le.mpr hfl
  exact div_le_div_of_nonneg_right this (by norm_num) |>.trans_eq rfl

/-! ### Pipeline lemmas -/

theorem mem_jsSortBy (cmp : α → α → JSNum) (l : List α) (a : α) :
    a ∈ jsSortBy cmp l ↔ a ∈ l :=
  mem_sortByLe _ l a

/-- Every recipe result comes from a catalog entry, carries that entry's
formatted similarity and identity, and passed the filter when one was
supplied. -/
theorem mem_rankRecipes (qe : List ℝ) (recipes : List CatalogEntry) (limit : ℕ)
    (filter : Option FilterObj) (r : SearchResult)
    (hr : r ∈ rankRecipes qe recipes limit filter) :
    ∃ e ∈ recipes,
      r = formatRecipeResult (ScoredEntry.mk e (cosineSimilarity qe e.embedding)) ∧
      ∀ f, filter = some f →
        recipeFilterPred f (ScoredEntry.mk e (cosineSimilarity qe e.embedding)) = true := by
  cases filter with
  | none =>
    unfold rankRecipes at hr
    dsimp only at hr
    rcases List.mem_map.mp hr with ⟨s, hs, hfmt⟩
    have hs1 : s ∈ jsSortBy (fun a b => jsSub b.similarity a.similarity)
        (recipes.map (fun recipe =>
          ScoredEntry.mk recipe (cosineSimilarity qe recipe.embedding))) :=
      List.Sublist.mem hs (List.take_sublist _ _)
    have hs2 := (mem_jsSortBy _ _ s).mp hs1
    rcases List.mem_map.mp hs2 with ⟨e, he, hse⟩
    refine ⟨e, he, ?_, ?_⟩
    · rw [← hfmt, ← hse]
    · intro f hf
      cases hf
  | some f =>
    unfold rankRecipes at hr
    dsimp only at hr
    rcases List.mem_map.mp hr with ⟨s, hs, hfmt⟩
    have hs1 : s ∈ jsSortBy (fun a b => jsSub b.similarity a.similarity)
        ((recipes.map (fun recipe =>
          ScoredEntry.mk recipe (cosineSimilarity qe recipe.embedding))).filter
            (recipeFilterPred f)) :=
      List.Sublist.mem hs (List.take_sublist _ _)
    have hs2 := (mem_jsSortBy _ _ s).mp hs1
    rcases List.mem_filter.mp hs2 with ⟨hs3, hpred⟩
    rcases List.mem_map.mp hs3 with ⟨e, he, hse⟩
    refine ⟨e, he, ?_, ?_⟩
    · rw [← hfmt, ← hse]
    · intro f' hf'
      cases hf'
      rw [hse]
      exact hpred

/-- Ingredient counterpart of `mem_rankRecipes`. -/
theorem mem_rankIngredients (qe : List ℝ) (ingredients : List CatalogEntry) (limit : ℕ)
    (filter : Option FilterObj) (r : SearchResult)
    (hr : r ∈ rankIngredients qe ingredients limit filter) :
    ∃ e ∈ ingredients,
      r = formatIngredientResult (ScoredEntry.mk e (cosineSimilarity qe e.embedding)) ∧
      ∀ f, filter = some f →
        ingredientFilterPred f (ScoredEntry.mk e (cosineSimilarity qe e.embedding)) = true := by
  cases filter with
  | none =>
    unfold rankIngredients at hr
    dsimp only at hr
    rcases List.mem_map.mp hr with ⟨s, hs, hfmt⟩
    have hs1 : s ∈ jsSortBy (fun a b => jsSub b.similarity a.similarity)
        (ingredients.map (fun ingredient =>
          ScoredEntry.mk ingredient (cosineSimilarity qe ingredient.embedding))) :=
      List.Sublist.mem hs (List.take_sublist _ _)
    have hs2 := (mem_jsSortBy _ _ s).mp hs1
    rcases List.mem_map.mp hs2 with ⟨e, he, hse⟩
    refine ⟨e, he, ?_, ?_⟩
    · rw [← hfmt, ← hse]
    · intro f hf
      cases hf
  | some f =>
    unfold rankIngredients at hr
    dsimp only at hr
    rcases List.mem_map.mp hr with ⟨s, hs, hfmt⟩
    have hs1 : s ∈ jsSortBy (fun a b => jsSub b.similarity a.similarity)
        ((ingredients.map (fun ingredient =>
          ScoredEntry.mk ingredient (cosineSimilarity qe ingredient.embedding))).filter
            (ingredientFilterPred f)) :=
      List.Sublist.mem hs (List.take_sublist _ _)
    have hs2 := (mem_jsSortBy _ _ s).mp hs1
    rcases List.mem_filter.mp hs2 with ⟨hs3, hpred⟩
    rcases List.mem_map.mp hs3 with ⟨e, he, hse⟩
    refine ⟨e, he, ?_, ?_⟩
    · rw [← hfmt, ← hse]
    · intro f' hf'
      cases hf'
      rw [hse]
      exact hpred

/-- Sortedness of the scored-and-sorted list when every similarity in it is an
actual number: the comparator is then consistent and insertion sort yields a
descending chain. -/
theorem jsSortBy_similarity_pairwise (l : List ScoredEntry)
    (h : ∀ s ∈ l, (s.similarity).isNum = true) :
    (jsSortBy (fun a b => jsSub b.similarity a.similarity) l).Pairwise
      (fun a b => jsCmpLe (jsSub b.similarity a.similarity) = true) := by
  apply pairwise_sortByLe (fun a b => jsCmpLe (jsSub b.similarity a.similarity)) l
  · intro a ha b hb
    rcases ha' : a.similarity with x | _
    · rcases hb' : b.similarity with y | _
      · unfold jsSub jsCmpLe
        rcases le_total y x with hle | hle
        · left
          simp
          linarith
        · right
          simp
          linarith
      · have := h b hb
        rw [hb'] at this
        cases this
    · have := h a ha
      rw [ha'] at this
      cases this
  · intro a ha b hb c hc hab hbc
    rcases ha' : a.similarity with x | _
    · rcases hb' : b.similarity with y | _
      · rcases hc' : c.similarity with z | _
        · rw [ha', hb'] at hab
          rw [hb', hc'] at hbc
          unfold jsSub jsCmpLe at hab hbc ⊢
          simp at hab hbc ⊢
          linarith
        · have := h c hc
          rw [hc'] at this
          cases this
      · have := h b hb
        rw [hb'] at this
        cases this
    · have := h a ha
      rw [ha'] at this
      cases this
  · intro z hz
    exact hz

/-- Descending sortedness of the recipe pipeline output, given that every
catalog entry scores to an actual number against the query embedding. -/
theorem rankRecipes_pairwise (qe : List ℝ) (recipes : List CatalogEntry) (limit : ℕ)
    (filter : Option FilterObj)
    (h : ∀ e ∈ recipes, (cosineSimilarity qe e.embedding).isNum = true) :
    (rankRecipes qe recipes limit filter).Pairwise
      (fun a b => jsNumGe a.similarity b.similarity) := by
  have hscored : ∀ s ∈ (recipes.map (fun recipe =>
      ScoredEntry.mk recipe (cosineSimilarity qe recipe.embedding))),
      (s.similarity).isNum = true := by
    intro s hs
    rcases List.mem_map.mp hs with ⟨e, he, hse⟩
    rw [← hse]
    exact h e he
  have main : ∀ l : List ScoredEntry, (∀ s ∈ l, (s.similarity).isNum = true) →
      ((jsSortBy (fun a b => jsSub b.similarity a.similarity) l).take limit |>.map
        formatRecipeResult).Pairwise (fun a b => jsNumGe a.similarity b.similarity) := by
    intro l hl
    rw [List.pairwise_map]
    have hsorted := jsSortBy_similarity_pairwise l hl
    have htake := hsorted.sublist (List.take_sublist limit _)
    refine htake.imp_of_mem ?_
    intro a b ha hb hab
    have ha' : a ∈ l := (mem_jsSortBy _ _ a).mp (List.Sublist.mem ha (List.take_sublist _ _))
    have hb' : b ∈ l := (mem_jsSortBy _ _ b).mp (List.Sublist.mem hb (List.take_sublist _ _))
    rcases hax : a.similarity with x | _
    · rcases hbx : b.similarity with y | _
      · rw [hax, hbx] at hab
        unfold jsSub jsCmpLe at hab
        simp at hab
        unfold formatRecipeResult
        dsimp only
        rw [hax, hbx]
        exact formatSimilarity_mono x y (by linarith)
      · have := hl b hb'
        rw [hbx] at this
        cases this
    · have := hl a ha'
      rw [hax] at this
      cases this
  cases filter with
  | none =>
    unfold rankRecipes
    dsimp only
    exact main _ hscored
  | some f =>
    unfold rankRecipes
    dsimp only
    refine main _ ?_
    intro s hs
    exact hscored s (List.mem_filter.mp hs).1

/-- Ingredient counterpart of `rankRecipes_pairwise`. -/
theorem rankIngredients_pairwise (qe : List ℝ) (ingredients : List CatalogEntry) (limit : ℕ)
    (filter : Option FilterObj)
    (h : ∀ e ∈ ingredients, (cosineSimilarity qe e.embedding).isNum = true) :
    (rankIngredients qe ingredients limit filter).Pairwise
      (fun a b => jsNumGe a.similarity b.similarity) := by
  have hscored : ∀ s ∈ (ingredients.map (fun ingredient =>
      ScoredEntry.mk ingredient (cosineSimilarity qe ingredient.embedding))),
      (s.similarity).isNum = true := by
    intro s hs
    rcases List.mem_map.mp hs with ⟨e, he, hse⟩
    rw [← hse]
    exact h e he
  have main : ∀ l : List ScoredEntry, (∀ s ∈ l, (s.similarity).isNum = true) →
      ((jsSortBy (fun a b => jsSub b.similarity a.similarity) l).take limit |>.map
        formatIngredientResult).Pairwise (fun a b => jsNumGe a.similarity b.similarity) := by
    intro l hl
    rw [List.pairwise_map]
    have hsorted := jsSortBy_similarity_pairwise l hl
    have htake := hsorted.sublist (List.take_sublist limit _)
    refine htake.imp_of_mem ?_
    intro a b ha hb hab
    have ha' : a ∈ l := (mem_jsSortBy _ _ a).mp (List.Sublist.mem ha (List.take_sublist _ _))
    have hb' : b ∈ l := (mem_jsSortBy _ _ b).mp (List.Sublist.mem hb (List.take_sublist _ _))
    rcases hax : a.similarity with x | _
    · rcases hbx : b.similarity with y | _
      · rw [hax, hbx] at hab
        unfold jsSub jsCmpLe at hab
        simp at hab
        unfold formatIngredientResult
        dsimp only
        rw [hax, hbx]
        exact formatSimilarity_mono x y (by linarith)
      · have := hl b hb'
        rw [hbx] at this
        cases this
    · have := hl a ha'
      rw [hax] at this
      cases this
  cases filter with
  | none =>
    unfold rankIngredients
    dsimp only
    exact main _ hscored
  | some f =>
    unfold rankIngredients
    dsimp only
    refine main _ ?_
    intro s hs
    exact hscored s (List.mem_filter.mp hs).1

/-! ### Concrete fixtures and their evaluations -/

/-- A 1-dimensional embedding snapshot: every query embeds to `[1]`. -/
def exEmbed1 : String → List ℝ := fun _ => [1]

/-- A 2-dimensional embedding snapshot: every query embeds to `[1, 0]`. -/
def exEmbed2 : String → List ℝ := fun _ => [1, 0]

/-- A recipe entry aligned with the query embedding `[1]`. -/
def entryPos : CatalogEntry :=
  { id := "r1"
    metadata := { name := "Margarita", category := some "Cocktail", alcoholic := some "Alcoholic" }
    embedding := [1] }

/-- A recipe entry opposed to the query embedding `[1]`. -/
def entryNeg : CatalogEntry :=
  { id := "r2", metadata := { name := "Opposite" }, embedding := [-1] }

/-- Entries with a zero embedding vector. -/
def entryZero1 : CatalogEntry :=
  { id := "z1", metadata := { name := "ZeroA" }, embedding := [0] }

def entryZero2 : CatalogEntry :=
  { id := "z2", metadata := { name := "ZeroB" }, embedding := [0] }

/-- Unit entries for the 2-dimensional snapshot. -/
def entryUnit1 : CatalogEntry :=
  { id := "u1", metadata := { name := "Aligned" }, embedding := [1, 0] }

def entryUnit2 : CatalogEntry :=
  { id := "u2", metadata := { name := "Orthogonal" }, embedding := [0, 1] }

/-- The state of a freshly constructed service: both caches empty. -/
def emptyState : SearchState := { recipeCache := [], ingredientCache := [] }

def resultPos : SearchResult :=
  { id := "r1", name := "Margarita", similarity := .num 100
    metadata := { category := some "Cocktail", alcoholic := some "Alcoholic" } }

def resultNeg : SearchResult :=
  { id := "r2", name := "Opposite", similarity := .num (-100), metadata := {} }

def resultZero1 : SearchResult :=
  { id := "z1", name := "ZeroA", similarity := .nan, metadata := {} }

def resultZero2 : SearchResult :=
  { id := "z2", name := "ZeroB", similarity := .nan, metadata := {} }

theorem cos_one_one : cosineSimilarity [(1 : ℝ)] [(1 : ℝ)] = JSNum.num 1 := by
  have hd : dotNormLoop [(1 : ℝ)] [(1 : ℝ)] = (1, 1, 1) := by
    norm_num [dotNormLoop]
  simp only [cosineSimilarity]
  rw [hd]
  norm_num [jsDiv, Real.sqrt_one]

theorem cos_one_negone : cosineSimilarity [(1 : ℝ)] [(-1 : ℝ)] = JSNum.num (-1) := by
  have hd : dotNormLoop [(1 : ℝ)] [(-1 : ℝ)] = (-1, 1, 1) := by
    norm_num [dotNormLoop]
  simp only [cosineSimilarity]
  rw [hd]
  norm_num [jsDiv, Real.sqrt_one]

theorem cos_one_zero : cosineSimilarity [(1 : ℝ)] [(0 : ℝ)] = JSNum.nan := by
  apply cosineSimilarity_nan_of_norm_eq_zero
  right
  norm_num [dotNormLoop]

theorem cos_unit1 : cosineSimilarity [(1 : ℝ), 0] [(1 : ℝ), 0] = JSNum.num 1 := by
  have hd : dotNormLoop [(1 : ℝ), 0] [(1 : ℝ), 0] = (1, 1, 1) := by
    norm_num [dotNormLoop]
  simp only [cosineSimilarity]
  rw [hd]
  norm_num [jsDiv, Real.sqrt_one]

theorem cos_unit2 : cosineSimilarity [(1 : ℝ), 0] [(0 : ℝ), 1] = JSNum.num 0 := by
  have hd : dotNormLoop [(1 : ℝ), 0] [(0 : ℝ), 1] = (0, 1, 1) := by
    norm_num [dotNormLoop]
  simp only [cosineSimilarity]
  rw [hd]
  norm_num [jsDiv, Real.sqrt_one]

theorem fmt_one : formatSimilarity (JSNum.num 1) = JSNum.num 100 := by
  have h : ⌊(1 : ℝ) * 1000 + 1 / 2⌋ = (1000 : ℤ) := by
    rw [Int.floor_eq_iff]
    push_cast
    constructor
    · norm_num
    · norm_num
  simp only [formatSimilarity, jsRound]
  rw [h]
  norm_num

theorem fmt_negone : formatSimilarity (JSNum.num (-1)) = JSNum.num (-100) := by
  have h : ⌊(-1 : ℝ) * 1000 + 1 / 2⌋ = (-1000 : ℤ) := by
    rw [Int.floor_eq_iff]
    push_cast
    constructor
    · norm_num
    · norm_num
  simp only [formatSimilarity, jsRound]
  rw [h]
  norm_num

theorem fmt_zero : formatSimilarity (JSNum.num 0) = JSNum.num 0 := by
  have h : ⌊(0 : ℝ) * 1000 + 1 / 2⌋ = (0 : ℤ) := by
    rw [Int.floor_eq_iff]
    push_cast
    constructor
    · norm_num
    · norm_num
  simp only [formatSimilarity, jsRound]
  rw [h]
  norm_num

theorem rank_entryNeg : rankRecipes [(1 : ℝ)] [entryNeg] 1 none = [resultNeg] := by
  unfold rankRecipes jsSortBy sortByLe
  simp only [List.map, List.foldr]
  rw [show entryNeg.embedding = [(-1 : ℝ)] from rfl, cos_one_negone]
  simp [insertSorted, formatRecipeResult, fmt_negone, resultNeg, entryNeg]

theorem rank_entryPos_emptyCategory :
    rankRecipes [(1 : ℝ)] [entryPos] 1 (some [("category", "")]) = [resultPos] := by
  unfold rankRecipes jsSortBy sortByLe
  simp only [List.map]
  rw [show entryPos.embedding = [(1 : ℝ)] from rfl, cos_one_one]
  have hpred : recipeFilterPred [("category", "")] (ScoredEntry.mk entryPos (JSNum.num 1)) =
      true := by decide
  simp [List.filter, hpred, insertSorted, formatRecipeResult, fmt_one, resultPos, entryPos]

theorem rank_zeros :
    rankRecipes [(1 : ℝ)] [entryZero1, entryZero2] 2 none = [resultZero1, resultZero2] := by
  unfold rankRecipes jsSortBy sortByLe
  simp only [List.map, List.foldr]
  rw [show entryZero1.embedding = [(0 : ℝ)] from rfl,
    show entryZero2.embedding = [(0 : ℝ)] from rfl, cos_one_zero]
  simp [insertSorted, jsSub, jsCmpLe, formatSimilarity, formatRecipeResult,
    resultZero1, resultZero2, entryZero1, entryZero2]

theorem rank_zero_single : rankRecipes [(1 : ℝ)] [entryZero1] 1 none = [resultZero1] := by
  unfold rankRecipes jsSortBy sortByLe
  simp only [List.map, List.foldr]
  rw [show entryZero1.embedding = [(0 : ℝ)] from rfl, cos_one_zero]
  simp [insertSorted, formatSimilarity, formatRecipeResult, resultZero1, entryZero1]

theorem rank_entryPos_nofilter : rankRecipes [(1 : ℝ)] [entryPos] 1 none = [resultPos] := by
  unfold rankRecipes jsSortBy sortByLe
  simp only [List.map, List.foldr]
  rw [show entryPos.embedding = [(1 : ℝ)] from rfl, cos_one_one]
  simp [insertSorted, formatRecipeResult, fmt_one, resultPos, entryPos]

theorem rank_entryPos_catCocktail :
    rankRecipes [(1 : ℝ)] [entryPos] 1 (some [("category", "Cocktail")]) = [resultPos] := by
  unfold rankRecipes jsSortBy sortByLe
  simp only [List.map]
  rw [show entryPos.embedding = [(1 : ℝ)] from rfl, cos_one_one]
  have hpred : recipeFilterPred [("category", "Cocktail")]
      (ScoredEntry.mk entryPos (JSNum.num 1)) = true := by decide
  simp [List.filter, hpred, insertSorted, formatRecipeResult, fmt_one, resultPos, entryPos]

/-! ### Claim theorems -/

/-- Claim C1, counterexample.  A catalog holding two zero-embedding entries is
served with both similarities NaN; since any comparison with NaN is false, the
returned sequence violates `results[0].similarity >= results[1].similarity`,
so the response is not sorted by similarity in descending order as claimed. -/
theorem c1_counterexample :
    (searchRecipes exEmbed1 [entryZero1, entryZero2] emptyState 0 "abc" 2 none).1 =
      [resultZero1, resultZero2] ∧
    ¬ ((searchRecipes exEmbed1 [entryZero1, entryZero2] emptyState 0 "abc" 2 none).1).Pairwise
        (fun a b => jsNumGe a.similarity b.similarity) := by
  have h1 : (searchRecipes exEmbed1 [entryZero1, entryZero2] emptyState 0 "abc" 2 none).1 =
      [resultZero1, resultZero2] := by
    rw [searchRecipes_miss exEmbed1 [entryZero1, entryZero2] emptyState 0 "abc" 2 none rfl]
    show rankRecipes (exEmbed1 "abc") [entryZero1, entryZero2] 2 none = _
    rw [show exEmbed1 "abc" = [(1 : ℝ)] from rfl]
    exact rank_zeros
  refine ⟨h1, ?_⟩
  rw [h1]
  intro hpw
  exact (List.pairwise_cons.mp hpw).1 resultZero2 (List.mem_singleton.mpr rfl)

/-- Claim C1, amended.  Whenever every catalog entry scores to an actual
number against the query embedding (no zero-norm vectors, hence no NaN) and
the response is freshly computed (cache miss), the result sequence of both
`searchRecipes` and `searchIngredients` is sorted by similarity in descending
order: `results[i].similarity >= results[i+1].similarity` for every valid
`i`.  (A cache hit replays a sequence computed earlier by the same
pipeline.) -/
theorem c1_sorted (embed : String → List ℝ) (recipes ingredients : List CatalogEntry)
    (st : SearchState) (now : ℕ) (q : String) (limit : ℕ) (f : Option FilterObj)
    (hnumR : ∀ e ∈ recipes, (cosineSimilarity (embed q) e.embedding).isNum = true)
    (hnumI : ∀ e ∈ ingredients, (cosineSimilarity (embed q) e.embedding).isNum = true)
    (hmissR : cacheGet st.recipeCache (cacheKeyStr q limit f) now = none)
    (hmissI : cacheGet st.ingredientCache (cacheKeyStr q limit f) now = none) :
    ((searchRecipes embed recipes st now q limit f).1).Pairwise
        (fun a b => jsNumGe a.similarity b.similarity) ∧
    ((searchIngredients embed ingredients st now q limit f).1).Pairwise
        (fun a b => jsNumGe a.similarity b.similarity) := by
  rw [searchRecipes_miss embed recipes st now q limit f hmissR,
    searchIngredients_miss embed ingredients st now q limit f hmissI]
  exact ⟨rankRecipes_pairwise (embed q) recipes limit f hnumR,
    rankIngredients_pairwise (embed q) ingredients limit f hnumI⟩

/-- Claim C1, witness: a concrete two-entry catalog with unit embeddings
satisfies the no-NaN hypothesis, and the freshly computed response is sorted
descending. -/
theorem c1_sorted_witness :
    (∀ e ∈ [entryUnit1, entryUnit2],
      (cosineSimilarity (exEmbed2 "sour citrus") e.embedding).isNum = true) ∧
    ((searchRecipes exEmbed2 [entryUnit1, entryUnit2] emptyState 0 "sour citrus" 10 none).1).Pairwise
      (fun a b => jsNumGe a.similarity b.similarity) := by
  have hnum : ∀ e ∈ [entryUnit1, entryUnit2],
      (cosineSimilarity (exEmbed2 "sour citrus") e.embedding).isNum = true := by
    intro e he
    rcases List.mem_cons.mp he with h | h
    · subst h
      rw [show exEmbed2 "sour citrus" = [(1 : ℝ), 0] from rfl,
        show entryUnit1.embedding = [(1 : ℝ), 0] from rfl, cos_unit1]
      rfl
    · rcases List.mem_cons.mp h with h2 | h2
      · subst h2
        rw [show exEmbed2 "sour citrus" = [(1 : ℝ), 0] from rfl,
          show entryUnit2.embedding = [(0 : ℝ), 1] from rfl, cos_unit2]
        rfl
      · cases h2
  refine ⟨hnum, ?_⟩
  exact (c1_sorted exEmbed2 [entryUnit1, entryUnit2] [] emptyState 0 "sour citrus" 10 none
    hnum (by intro e he; cases he) rfl rfl).1

/-- Claim C2, counterexample.  A filter that specifies `category` with the
empty-string value is silently ignored, because the source guards the category
check by the truthiness of `filter.category` and the empty string is falsy: an
entry whose category is "Cocktail" is returned although the filter specifies
`category = ""`. -/
theorem c2_counterexample :
    fGet [("category", "")] "category" = some "" ∧
    (searchRecipes exEmbed1 [entryPos] emptyState 0 "abc" 1 (some [("category", "")])).1 =
      [resultPos] ∧
    resultPos.metadata.category ≠ some "" := by
  refine ⟨by decide, ?_, by decide⟩
  rw [searchRecipes_miss exEmbed1 [entryPos] emptyState 0 "abc" 1 (some [("category", "")]) rfl]
  show rankRecipes (exEmbed1 "abc") [entryPos] 1 (some [("category", "")]) = _
  rw [show exEmbed1 "abc" = [(1 : ℝ)] from rfl]
  exact rank_entryPos_emptyCategory

/-- Claim C2, amended.  For every freshly computed response, every returned
result's metadata equals the filter's value exactly (case-sensitive) on every
attribute the filter specifies with a truthy (non-empty) value; for the
recipes' `alcoholic` attribute the match is enforced for every specified
value including the empty string.  Entries absent or mismatched on an enforced
attribute are excluded before truncation to `limit`. -/
theorem c2_filter (embed : String → List ℝ) (recipes ingredients : List CatalogEntry)
    (st : SearchState) (now : ℕ) (q : String) (limit : ℕ) (f : FilterObj) :
    (∀ r, cacheGet st.recipeCache (cacheKeyStr q limit (some f)) now = none →
      r ∈ (searchRecipes embed recipes st now q limit (some f)).1 →
      (∀ c, fGet f "category" = some c → c ≠ "" → r.metadata.category = some c) ∧
      (∀ a, fGet f "alcoholic" = some a → r.metadata.alcoholic = some a)) ∧
    (∀ r, cacheGet st.ingredientCache (cacheKeyStr q limit (some f)) now = none →
      r ∈ (searchIngredients embed ingredients st now q limit (some f)).1 →
      (∀ c, fGet f "category" = some c → c ≠ "" → r.metadata.category = some c) ∧
      (∀ v, fGet f "family" = some v → v ≠ "" → r.metadata.family = some v)) := by
  constructor
  · intro r hmiss hr
    rw [searchRecipes_miss embed recipes st now q limit (some f) hmiss] at hr
    rcases mem_rankRecipes (embed q) recipes limit (some f) r hr with ⟨e, _, hre, hpred⟩
    have hp := hpred f rfl
    unfold recipeFilterPred at hp
    have hA : ¬ (truthyStr (fGet f "category") = true ∧
        e.metadata.category ≠ fGet f "category") := by
      intro hA
      rw [if_pos hA] at hp
      cases hp
    rw [if_neg hA] at hp
    have hB : ¬ ((fGet f "alcoholic").isSome = true ∧
        e.metadata.alcoholic ≠ fGet f "alcoholic") := by
      intro hB
      rw [if_pos hB] at hp
      cases hp
    constructor
    · intro c hc hcne
      have htruthy : truthyStr (fGet f "category") = true := by
        rw [hc]
        unfold truthyStr
        exact decide_eq_true hcne
      have : e.metadata.category = fGet f "category" := by
        by_contra hne
        exact hA ⟨htruthy, hne⟩
      rw [hre]
      unfold formatRecipeResult
      dsimp only
      rw [this, hc]
    · intro a ha
      have hsome : (fGet f "alcoholic").isSome = true := by
        rw [ha]
        rfl
      have : e.metadata.alcoholic = fGet f "alcoholic" := by
        by_contra hne
        exact hB ⟨hsome, hne⟩
      rw [hre]
      unfold formatRecipeResult
      dsimp only
      rw [this, ha]
  · intro r hmiss hr
    rw [searchIngredients_miss embed ingredients st now q limit (some f) hmiss] at hr
    rcases mem_rankIngredients (embed q) ingredients limit (some f) r hr with ⟨e, _, hre, hpred⟩
    have hp := hpred f rfl
    unfold ingredientFilterPred at hp
    have hA : ¬ (truthyStr (fGet f "category") = true ∧
        e.metadata.category ≠ fGet f "category") := by
      intro hA
      rw [if_pos hA] at hp
      cases hp
    rw [if_neg hA] at hp
    have hB : ¬ (truthyStr (fGet f "family") = true ∧
        e.metadata.family ≠ fGet f "family") := by
      intro hB
      rw [if_pos hB] at hp
      cases hp
    constructor
    · intro c hc hcne
      have htruthy : truthyStr (fGet f "category") = true := by
        rw [hc]
        unfold truthyStr
        exact decide_eq_true hcne
      have : e.metadata.category = fGet f "category" := by
        by_contra hne
        exact hA ⟨htruthy, hne⟩
      rw [hre]
      unfold formatIngredientResult
      dsimp only
      rw [this, hc]
    · intro v hv hvne
      have htruthy : truthyStr (fGet f "family") = true := by
        rw [hv]
        unfold truthyStr
        exact decide_eq_true hvne
      have : e.metadata.family = fGet f "family" := by
        by_contra hne
        exact hB ⟨htruthy, hne⟩
      rw [hre]
      unfold formatIngredientResult
      dsimp only
      rw [this, hv]

/-- Claim C2, witness: with the filter `category = "Cocktail"`, the returned
result exists and its metadata carries exactly that category. -/
theorem c2_filter_witness :
    fGet [("category", "Cocktail")] "category" = some "Cocktail" ∧
    resultPos ∈ (searchRecipes exEmbed1 [entryPos] emptyState 0 "abc" 1
      (some [("category", "Cocktail")])).1 ∧
    resultPos.metadata.category = some "Cocktail" := by
  have hmem : resultPos ∈ (searchRecipes exEmbed1 [entryPos] emptyState 0 "abc" 1
      (some [("category", "Cocktail")])).1 := by
    rw [searchRecipes_miss exEmbed1 [entryPos] emptyState 0 "abc" 1
      (some [("category", "Cocktail")]) rfl]
    show resultPos ∈ rankRecipes (exEmbed1 "abc") [entryPos] 1 (some [("category", "Cocktail")])
    rw [show exEmbed1 "abc" = [(1 : ℝ)] from rfl, rank_entryPos_catCocktail]
    exact List.mem_singleton.mpr rfl
  refine ⟨by decide, hmem, ?_⟩
  exact ((c2_filter exEmbed1 [entryPos] [] emptyState 0 "abc" 1
    [("category", "Cocktail")]).1 resultPos rfl hmem).1 "Cocktail" (by decide) (by decide)

/-- Claim C3 (code bug).  The cache key concatenates
`JSON.stringify(filter || {})`, which serializes keys in insertion order: the
two logically identical filters `{category: "Cocktail", alcoholic: "Alcoholic"}`
and `{alcoholic: "Alcoholic", category: "Cocktail"}` agree as mappings on every
key, yet produce different cache keys, so the second request misses the first
request's entry and a duplicate cache entry is created — contradicting the
claimed key-order insensitivity. -/
theorem c3_key_order_sensitive :
    cacheKeyStr "margarita" 10 (some [("category", "Cocktail"), ("alcoholic", "Alcoholic")]) ≠
      cacheKeyStr "margarita" 10 (some [("alcoholic", "Alcoholic"), ("category", "Cocktail")]) ∧
    (∀ k, fGet [("category", "Cocktail"), ("alcoholic", "Alcoholic")] k =
      fGet [("alcoholic", "Alcoholic"), ("category", "Cocktail")] k) := by
  constructor
  · decide
  · intro k
    by_cases h1 : ("category" : String) = k
    · subst h1
      decide
    · by_cases h2 : ("alcoholic" : String) = k
      · subst h2
        decide
      · have hb1 : (("category" : String) == k) = false := beq_eq_false_iff_ne.mpr h1
        have hb2 : (("alcoholic" : String) == k) = false := beq_eq_false_iff_ne.mpr h2
        unfold fGet
        simp [List.find?, hb1, hb2]

/-- Claim C4, counterexample.  A catalog entry whose embedding opposes the
query vector has cosine similarity -1 and is reported with similarity -100.0,
which is outside the claimed closed range [0, 100]. -/
theorem c4_counterexample :
    (searchRecipes exEmbed1 [entryNeg] emptyState 0 "abc" 1 none).1 = [resultNeg] ∧
    resultNeg.similarity = JSNum.num (-100) ∧
    ¬ (0 : ℝ) ≤ -100 := by
  refine ⟨?_, rfl, by norm_num⟩
  rw [searchRecipes_miss exEmbed1 [entryNeg] emptyState 0 "abc" 1 none rfl]
  show rankRecipes (exEmbed1 "abc") [entryNeg] 1 none = _
  rw [show exEmbed1 "abc" = [(1 : ℝ)] from rfl]
  exact rank_entryNeg

/-- Claim C4, amended.  Every similarity in a freshly computed response equals
`round(cosine_similarity * 1000) / 10` for its entry's cosine similarity, and
whenever it is an actual number it lies in the closed range [-100, 100] (the
lower end of the claimed range corrected from 0 to -100; NaN similarities
carry no number at all). -/
theorem c4_similarity (embed : String → List ℝ) (recipes ingredients : List CatalogEntry)
    (st : SearchState) (now : ℕ) (q : String) (limit : ℕ) (f : Option FilterObj) :
    (∀ r, cacheGet st.recipeCache (cacheKeyStr q limit f) now = none →
      r ∈ (searchRecipes embed recipes st now q limit f).1 →
      (∃ e ∈ recipes,
        r.similarity = formatSimilarity (cosineSimilarity (embed q) e.embedding)) ∧
      ∀ x, r.similarity = JSNum.num x → -100 ≤ x ∧ x ≤ 100) ∧
    (∀ r, cacheGet st.ingredientCache (cacheKeyStr q limit f) now = none →
      r ∈ (searchIngredients embed ingredients st now q limit f).1 →
      (∃ e ∈ ingredients,
        r.similarity = formatSimilarity (cosineSimilarity (embed q) e.embedding)) ∧
      ∀ x, r.similarity = JSNum.num x → -100 ≤ x ∧ x ≤ 100) := by
  constructor
  · intro r hmiss hr
    rw [searchRecipes_miss embed recipes st now q limit f hmiss] at hr
    rcases mem_rankRecipes (embed q) recipes limit f r hr with ⟨e, he, hre, _⟩
    have hsim : r.similarity = formatSimilarity (cosineSimilarity (embed q) e.embedding) := by
      rw [hre]
      rfl
    refine ⟨⟨e, he, hsim⟩, ?_⟩
    intro x hx
    rw [hsim] at hx
    rcases hcos : cosineSimilarity (embed q) e.embedding with c | _
    · rw [hcos] at hx
      rcases cosineSimilarity_num_bounds (embed q) e.embedding c hcos with ⟨hc1, hc2⟩
      exact formatSimilarity_bounds c x hc1 hc2 hx
    · rw [hcos] at hx
      cases hx
  · intro r hmiss hr
    rw [searchIngredients_miss embed ingredients st now q limit f hmiss] at hr
    rcases mem_rankIngredients (embed q) ingredients limit f r hr with ⟨e, he, hre, _⟩
    have hsim : r.similarity = formatSimilarity (cosineSimilarity (embed q) e.embedding) := by
      rw [hre]
      rfl
    refine ⟨⟨e, he, hsim⟩, ?_⟩
    intro x hx
    rw [hsim] at hx
    rcases hcos : cosineSimilarity (embed q) e.embedding with c | _
    · rw [hcos] at hx
      rcases cosineSimilarity_num_bounds (embed q) e.embedding c hcos with ⟨hc1, hc2⟩
      exact formatSimilarity_bounds c x hc1 hc2 hx
    · rw [hcos] at hx
      cases hx

/-- Claim C4, witness: the aligned entry is returned with similarity 100,
which is the rounded percentage of its cosine similarity and lies within
[-100, 100]. -/
theorem c4_similarity_witness :
    resultPos ∈ (searchRecipes exEmbed1 [entryPos] emptyState 0 "abc" 1 none).1 ∧
    resultPos.similarity = JSNum.num 100 ∧
    (-100 : ℝ) ≤ 100 ∧ (100 : ℝ) ≤ 100 := by
  have hmem : resultPos ∈ (searchRecipes exEmbed1 [entryPos] emptyState 0 "abc" 1 none).1 := by
    rw [searchRecipes_miss exEmbed1 [entryPos] emptyState 0 "abc" 1 none rfl]
    show resultPos ∈ rankRecipes (exEmbed1 "abc") [entryPos] 1 none
    rw [show exEmbed1 "abc" = [(1 : ℝ)] from rfl, rank_entryPos_nofilter]
    exact List.mem_singleton.mpr rfl
  have hb := ((c4_similarity exEmbed1 [entryPos] [] emptyState 0 "abc" 1 none).1
    resultPos rfl hmem).2 100 rfl
  exact ⟨hmem, rfl, hb.1, hb.2⟩

/-- Claim C5, counterexample.  The routers check only `limit < 1 || limit > 50`
and never integrality: the request `{query: "abc", limit: 2.5}` passes
validation although 5/2 is not an integer, contradicting the claim that
validation rejects exactly the non-integer limits outside [1, 50]. -/
theorem c5_counterexample :
    validateSearchRequest { query := some "abc", limit := some (5 / 2), filter := none } =
      none ∧
    (1 : ℚ) ≤ 5 / 2 ∧ (5 / 2 : ℚ) ≤ 50 ∧
    ¬ ∃ n : ℤ, ((5 : ℚ) / 2) = (n : ℤ) := by
  have hval : validateSearchRequest
      { query := some "abc", limit := some (5 / 2), filter := none } = none := by
    unfold validateSearchRequest
    dsimp only [Option.getD]
    rw [if_neg (by decide : ¬ ("abc" : String) = "")]
    rw [if_neg (by decide : ¬ ("abc" : String).length < 3)]
    rw [if_neg (by norm_num : ¬ ((5 : ℚ) / 2 < 1 ∨ 50 < (5 : ℚ) / 2))]
  refine ⟨hval, by norm_num, by norm_num, ?_⟩
  rintro ⟨n, hn⟩
  have h2 : (5 : ℚ) = 2 * (n : ℚ) := by
    field_simp at hn
    linarith
  have h3 : (5 : ℤ) = 2 * n := by exact_mod_cast h2
  omega

/-- Claim C5, amended.  Validation passes exactly when the query is a string
of length at least 3 and the (defaulted) limit lies in [1, 50] — integrality
of the limit is not checked.  On a validation failure the handler returns the
400 error before any embedding or catalog access: the state is untouched and
the embedding provider is not invoked. -/
theorem c5_validation (b : RequestBody) (embed : String → List ℝ)
    (recipes ingredients : List CatalogEntry) (st : SearchState) (now : ℕ) :
    (validateSearchRequest b = none ↔
      (∃ q, b.query = some q ∧ 3 ≤ q.length) ∧
        1 ≤ b.limit.getD 10 ∧ b.limit.getD 10 ≤ 50) ∧
    (∀ err, validateSearchRequest b = some err →
      handleRecipes embed recipes st now b = (.error err, st, false) ∧
      handleIngredients embed ingredients st now b = (.error err, st, false)) := by
  constructor
  · unfold validateSearchRequest
    rcases hq : b.query with _ | q
    · simp
    · by_cases h0 : q = ""
      · subst h0
        simp
      · dsimp only
        rw [if_neg h0]
        by_cases hlen : q.length < 3
        · rw [if_pos hlen]
          simp only [reduceCtorEq, false_iff, not_and]
          intro hex
          rcases hex with ⟨q', hq', hlen'⟩
          cases hq'
          omega
        · rw [if_neg hlen]
          by_cases hl : b.limit.getD 10 < 1 ∨ 50 < b.limit.getD 10
          · rw [if_pos hl]
            simp only [reduceCtorEq, false_iff, not_and]
            intro _
            rcases hl with hl | hl
            · intro h1
              linarith
            · intro _ h50
              linarith
          · rw [if_neg hl]
            push_neg at hl
            simp only [true_iff]
            exact ⟨⟨q, rfl, by omega⟩, hl.1, hl.2⟩
  · intro err herr
    constructor
    · unfold handleRecipes
      rw [herr]
    · unfold handleIngredients
      rw [herr]

/-- Claim C5, witness: a two-character query is rejected with the length
error, leaving the state untouched and the provider uninvoked; the boundary
request (query length 3, limit 1) passes validation. -/
theorem c5_validation_witness :
    validateSearchRequest { query := some "ab", limit := none, filter := none } =
      some "Query must be at least 3 characters long" ∧
    handleRecipes exEmbed1 [] emptyState 0 { query := some "ab", limit := none, filter := none } =
      (.error "Query must be at least 3 characters long", emptyState, false) ∧
    validateSearchRequest { query := some "abc", limit := some 1, filter := none } = none := by
  have hok : validateSearchRequest
      { query := some "abc", limit := some 1, filter := none } = none := by
    unfold validateSearchRequest
    dsimp only [Option.getD]
    rw [if_neg (by decide : ¬ ("abc" : String) = "")]
    rw [if_neg (by decide : ¬ ("abc" : String).length < 3)]
    rw [if_neg (by norm_num : ¬ ((1 : ℚ) < 1 ∨ 50 < (1 : ℚ)))]
  refine ⟨by decide, ?_, hok⟩
  exact ((c5_validation { query := some "ab", limit := none, filter := none } exEmbed1 [] []
    emptyState 0).2 "Query must be at least 3 characters long" (by decide)).1

/-- Claim C6.  An entry stored at time `t` is never served once its age
exceeds the TTL: any search call at a time `now > t + cacheTimeout`
(5 minutes = 300000 ms) misses the cache and returns the freshly computed
ranking, with the embedding provider invoked again. -/
theorem c6_ttl_expiry (embed : String → List ℝ) (recipes ingredients : List CatalogEntry)
    (st : SearchState) (now : ℕ) (q : String) (limit : ℕ) (f : Option FilterObj)
    (v w : List SearchResult) (t u : ℕ)
    (hwfR : cacheWF st.recipeCache) (hwfI : cacheWF st.ingredientCache)
    (hmemR : (cacheKeyStr q limit f, v, t) ∈ st.recipeCache)
    (hmemI : (cacheKeyStr q limit f, w, u) ∈ st.ingredientCache)
    (hageR : t + cacheTimeout < now) (hageI : u + cacheTimeout < now) :
    (searchRecipes embed recipes st now q limit f).1 = rankRecipes (embed q) recipes limit f ∧
    (searchRecipes embed recipes st now q limit f).2.2 = true ∧
    (searchIngredients embed ingredients st now q limit f).1 =
      rankIngredients (embed q) ingredients limit f ∧
    (searchIngredients embed ingredients st now q limit f).2.2 = true := by
  have hmR : cacheGet st.recipeCache (cacheKeyStr q limit f) now = none :=
    cacheGet_none_of_stale st.recipeCache (cacheKeyStr q limit f) v t now hwfR hmemR
      (le_of_lt hageR)
  have hmI : cacheGet st.ingredientCache (cacheKeyStr q limit f) now = none :=
    cacheGet_none_of_stale st.ingredientCache (cacheKeyStr q limit f) w u now hwfI hmemI
      (le_of_lt hageI)
  rw [searchRecipes_miss embed recipes st now q limit f hmR,
    searchIngredients_miss embed ingredients st now q limit f hmI]
  exact ⟨rfl, rfl, rfl, rfl⟩

/-- A state holding one cache entry per collection, both stored at time 0. -/
def staleState : SearchState :=
  { recipeCache := [(cacheKeyStr "mojito" 1 none, [resultPos], 0)]
    ingredientCache := [(cacheKeyStr "mojito" 1 none, [resultPos], 0)] }

/-- Claim C6, witness: a call 300001 ms after the store (age > TTL) does not
return the stored `[resultPos]`; it recomputes (here over an empty catalog)
and invokes the provider. -/
theorem c6_ttl_expiry_witness :
    0 + cacheTimeout < 300001 ∧
    (searchRecipes exEmbed1 [] staleState 300001 "mojito" 1 none).1 = [] ∧
    (searchRecipes exEmbed1 [] staleState 300001 "mojito" 1 none).2.2 = true := by
  have h := c6_ttl_expiry exEmbed1 [] [] staleState 300001 "mojito" 1 none
    [resultPos] [resultPos] 0 0
    (by simp [cacheWF, staleState]) (by simp [cacheWF, staleState])
    (List.mem_singleton.mpr rfl) (List.mem_singleton.mpr rfl)
    (by norm_num [cacheTimeout]) (by norm_num [cacheTimeout])
  exact ⟨by norm_num [cacheTimeout], h.1.trans rfl, h.2.1⟩

/-- Claim C7.  The cache never changes output values: for a fixed catalog
snapshot and fixed query embedding, a cache-miss call returns exactly the pure
ranking computation; repeating the same call immediately (a cache hit) returns
the same value, and repeating it after `clearCache` (a forced miss) also
returns the same value. -/
theorem c7_cache_transparent (embed : String → List ℝ)
    (recipes ingredients : List CatalogEntry) (st : SearchState) (now : ℕ)
    (q : String) (limit : ℕ) (f : Option FilterObj)
    (hR : cacheGet st.recipeCache (cacheKeyStr q limit f) now = none)
    (hI : cacheGet st.ingredientCache (cacheKeyStr q limit f) now = none) :
    ((searchRecipes embed recipes st now q limit f).1 =
      rankRecipes (embed q) recipes limit f) ∧
    ((searchRecipes embed recipes (searchRecipes embed recipes st now q limit f).2.1
        now q limit f).1 = (searchRecipes embed recipes st now q limit f).1) ∧
    ((searchRecipes embed recipes
        (clearCache (searchRecipes embed recipes st now q limit f).2.1) now q limit f).1 =
      (searchRecipes embed recipes st now q limit f).1) ∧
    ((searchIngredients embed ingredients st now q limit f).1 =
      rankIngredients (embed q) ingredients limit f) ∧
    ((searchIngredients embed ingredients
        (searchIngredients embed ingredients st now q limit f).2.1 now q limit f).1 =
      (searchIngredients embed ingredients st now q limit f).1) ∧
    ((searchIngredients embed ingredients
        (clearCache (searchIngredients embed ingredients st now q limit f).2.1)
        now q limit f).1 =
      (searchIngredients embed ingredients st now q limit f).1) := by
  have hmR := searchRecipes_miss embed recipes st now q limit f hR
  have hmI := searchIngredients_miss embed ingredients st now q limit f hI
  have hfresh : 0 < cacheTimeout := by norm_num [cacheTimeout]
  refine ⟨by rw [hmR], ?_, ?_, by rw [hmI], ?_, ?_⟩
  · rw [hmR]
    dsimp only
    have hget : cacheGet
        (cachePut st.recipeCache (cacheKeyStr q limit f)
          (rankRecipes (embed q) recipes limit f) now)
        (cacheKeyStr q limit f) now = some (rankRecipes (embed q) recipes limit f) := by
      rw [cacheGet_cachePut_self]
      rw [if_pos]
      omega
    rw [searchRecipes_hit embed recipes _ now q limit f _ hget]
  · rw [hmR]
    dsimp only
    rw [searchRecipes_miss embed recipes
      (clearCache { st with recipeCache := (cachePut st.recipeCache (cacheKeyStr q limit f)
        (rankRecipes (embed q) recipes limit f) now) }) now q limit f
      (cacheGet_nil (cacheKeyStr q limit f) now)]
  · rw [hmI]
    dsimp only
    have hget : cacheGet
        (cachePut st.ingredientCache (cacheKeyStr q limit f)
          (rankIngredients (embed q) ingredients limit f) now)
        (cacheKeyStr q limit f) now =
        some (rankIngredients (embed q) ingredients limit f) := by
      rw [cacheGet_cachePut_self]
      rw [if_pos]
      omega
    rw [searchIngredients_hit embed ingredients _ now q limit f _ hget]
  · rw [hmI]
    dsimp only
    rw [searchIngredients_miss embed ingredients
      (clearCache { st with ingredientCache := (cachePut st.ingredientCache
        (cacheKeyStr q limit f) (rankIngredients (embed q) ingredients limit f) now) })
      now q limit f (cacheGet_nil (cacheKeyStr q limit f) now)]

/-- Claim C7, witness: from an empty cache, the call computes the pure
ranking, the repeated call returns the same value, and so does the call after
clearing. -/
theorem c7_cache_transparent_witness :
    (searchRecipes exEmbed1 [] emptyState 0 "abc" 1 none).1 =
      rankRecipes (exEmbed1 "abc") [] 1 none ∧
    (searchRecipes exEmbed1 []
      (searchRecipes exEmbed1 [] emptyState 0 "abc" 1 none).2.1 0 "abc" 1 none).1 =
      (searchRecipes exEmbed1 [] emptyState 0 "abc" 1 none).1 ∧
    (searchRecipes exEmbed1 []
      (clearCache (searchRecipes exEmbed1 [] emptyState 0 "abc" 1 none).2.1) 0 "abc" 1 none).1 =
      (searchRecipes exEmbed1 [] emptyState 0 "abc" 1 none).1 := by
  have h := c7_cache_transparent exEmbed1 [] [] emptyState 0 "abc" 1 none rfl rfl
  exact ⟨h.1, h.2.1, h.2.2.1⟩

/-- Claim C8.  `getHealth` reports `healthy` exactly when the provider call
and both catalog loads succeed — in particular `healthy` implies the provider
is reachable — and the status does not depend on the reported catalog sizes or
cache entry counts: any two dependency outcomes with the same success pattern,
over any two cache states, yield the same status. -/
theorem c8_health (em : String) (st st2 : SearchState) (deps deps2 : HealthDeps) :
    ((getHealth em st deps).status = "healthy" ↔
      exceptOk deps.listModels = true ∧ exceptOk deps.recipesDb = true ∧
        exceptOk deps.ingredientsDb = true) ∧
    (exceptOk deps.listModels = exceptOk deps2.listModels →
      exceptOk deps.recipesDb = exceptOk deps2.recipesDb →
      exceptOk deps.ingredientsDb = exceptOk deps2.ingredientsDb →
      (getHealth em st deps).status = (getHealth em st2 deps2).status) := by
  obtain ⟨lm, rd, idb⟩ := deps
  obtain ⟨lm2, rd2, idb2⟩ := deps2
  constructor
  · cases lm <;> cases rd <;> cases idb <;> simp [getHealth, exceptOk]
  · cases lm <;> cases rd <;> cases idb <;> cases lm2 <;> cases rd2 <;> cases idb2 <;>
      simp [getHealth, exceptOk]

/-- Claim C8, witness: with all dependencies available the status is
`healthy`; with the provider unreachable it is not, whatever the catalog and
cache figures. -/
theorem c8_health_witness :
    (getHealth "nomic-embed-text" emptyState
      { listModels := .ok ["nomic-embed-text"], recipesDb := .ok [],
        ingredientsDb := .ok [] }).status = "healthy" ∧
    ¬ (getHealth "nomic-embed-text" emptyState
      { listModels := .error "connection refused", recipesDb := .ok [],
        ingredientsDb := .ok [] }).status = "healthy" := by
  constructor
  · exact (c8_health "nomic-embed-text" emptyState emptyState
      { listModels := .ok ["nomic-embed-text"], recipesDb := .ok [], ingredientsDb := .ok [] }
      { listModels := .ok ["nomic-embed-text"], recipesDb := .ok [],
        ingredientsDb := .ok [] }).1.mpr ⟨rfl, rfl, rfl⟩
  · intro hh
    have h := (c8_health "nomic-embed-text" emptyState emptyState
      { listModels := .error "connection refused", recipesDb := .ok [], ingredientsDb := .ok [] }
      { listModels := .error "connection refused", recipesDb := .ok [],
        ingredientsDb := .ok [] }).1.mp hh
    simp [exceptOk] at h

/-- Claim C9.  `cosineSimilarity` has no zero-norm guard: whenever either
vector's accumulated norm is zero the division is `0 / 0` and the result is
NaN (the undefined value) — the entry is neither excluded nor clamped to a
zero similarity, and the NaN propagates into the `similarity` field of a
returned result, as the concrete zero-embedding catalog shows. -/
theorem c9_no_zero_norm_guard :
    (∀ A B : List ℝ,
      (dotNormLoop A B).2.1 = 0 ∨ (dotNormLoop A B).2.2 = 0 →
        cosineSimilarity A B = JSNum.nan) ∧
    (searchRecipes exEmbed1 [entryZero1] emptyState 0 "abc" 1 none).1 = [resultZero1] ∧
    resultZero1.similarity = JSNum.nan := by
  refine ⟨cosineSimilarity_nan_of_norm_eq_zero, ?_, rfl⟩
  rw [searchRecipes_miss exEmbed1 [entryZero1] emptyState 0 "abc" 1 none rfl]
  show rankRecipes (exEmbed1 "abc") [entryZero1] 1 none = _
  rw [show exEmbed1 "abc" = [(1 : ℝ)] from rfl]
  exact rank_zero_single

/-- Claim C9, witness: the zero vector `[0]` against the query `[1]` has zero
norm and yields NaN. -/
theorem c9_no_zero_norm_guard_witness :
    (dotNormLoop [(1 : ℝ)] [(0 : ℝ)]).2.2 = 0 ∧
    cosineSimilarity [(1 : ℝ)] [(0 : ℝ)] = JSNum.nan := by
  have hz : (dotNormLoop [(1 : ℝ)] [(0 : ℝ)]).2.2 = 0 := by norm_num [dotNormLoop]
  exact ⟨hz, c9_no_zero_norm_guard.1 [(1 : ℝ)] [(0 : ℝ)] (Or.inr hz)⟩

/-- Claim C10.  The two operations never cross-contaminate through the cache:
`searchRecipes` leaves the ingredient cache untouched and its output is
independent of the ingredient cache; symmetrically for `searchIngredients`;
and `clearCache` empties both maps. -/
theorem c10_cache_isolation (embed : String → List ℝ) (entries : List CatalogEntry)
    (st st2 : SearchState) (now : ℕ) (q : String) (limit : ℕ) (f : Option FilterObj) :
    (searchRecipes embed entries st now q limit f).2.1.ingredientCache =
      st.ingredientCache ∧
    (searchIngredients embed entries st now q limit f).2.1.recipeCache = st.recipeCache ∧
    (st.recipeCache = st2.recipeCache →
      (searchRecipes embed entries st now q limit f).1 =
        (searchRecipes embed entries st2 now q limit f).1) ∧
    (st.ingredientCache = st2.ingredientCache →
      (searchIngredients embed entries st now q limit f).1 =
        (searchIngredients embed entries st2 now q limit f).1) ∧
    clearCache st = { recipeCache := [], ingredientCache := [] } := by
  refine ⟨?_, ?_, ?_, ?_, rfl⟩
  · unfold searchRecipes
    rcases hc : cacheGet st.recipeCache (cacheKeyStr q limit f) now with _ | v <;> rfl
  · unfold searchIngredients
    rcases hc : cacheGet st.ingredientCache (cacheKeyStr q limit f) now with _ | v <;> rfl
  · intro h
    unfold searchRecipes
    rw [h]
    rcases hc : cacheGet st2.recipeCache (cacheKeyStr q limit f) now with _ | v <;> rfl
  · intro h
    unfold searchIngredients
    rw [h]
    rcases hc : cacheGet st2.ingredientCache (cacheKeyStr q limit f) now with _ | v <;> rfl

/-- Claim C10, witness: concrete instantiation of the isolation properties on
the empty state. -/
theorem c10_cache_isolation_witness :
    (searchRecipes exEmbed1 [] emptyState 0 "abc" 1 none).2.1.ingredientCache =
      emptyState.ingredientCache ∧
    (searchRecipes exEmbed1 [] emptyState 0 "abc" 1 none).1 =
      (searchRecipes exEmbed1 [] emptyState 0 "abc" 1 none).1 ∧
    clearCache emptyState = { recipeCache := [], ingredientCache := [] } := by
  have h := c10_cache_isolation exEmbed1 [] emptyState emptyState 0 "abc" 1 none
  exact ⟨h.1, h.2.2.1 rfl, h.2.2.2.2⟩

end

end Gateway
